import Mathlib

/-!
Verification of the ACAWS Python backend cognitive-analysis services.

The definitions below are a shallow embedding of the relevant functions of
`services/enhanced_cognitive.py`, `services/temporal_analysis_service.py`
and `services/gaze_tracking_service.py`.  Python floats are modelled as
rationals (`ℚ`), Python lists and bounded deques as Lean lists, and the
nondeterministic clock (`time.time()`) as an explicit timestamp input.
-/

/-- Python slice `l[-n:]`: the last `n` elements of a list (the whole list
when it is shorter than `n`). -/
def lastN {α : Type} (n : Nat) (l : List α) : List α :=
  l.drop (l.length - n)

/-- The `FacialFeatures` dataclass of `enhanced_cognitive.py` (floats as `ℚ`,
with the dataclass's `0.0` defaults). -/
structure FacialFeatures where
  left_eye_openness : ℚ := 0
  right_eye_openness : ℚ := 0
  eye_aspect_ratio : ℚ := 0
  blink_rate : ℚ := 0
  mouth_openness : ℚ := 0
  mouth_width : ℚ := 0
  smile_intensity : ℚ := 0
  eyebrow_raise : ℚ := 0
  eyebrow_frown : ℚ := 0
  head_pitch : ℚ := 0
  head_yaw : ℚ := 0
  head_roll : ℚ := 0
  gaze_direction_x : ℚ := 0
  gaze_direction_y : ℚ := 0
  gaze_confidence : ℚ := 0
  face_size : ℚ := 0
  face_position_x : ℚ := 0
  face_position_y : ℚ := 0

/-- The `TemporalMetrics` dataclass: each deque is modelled by the list of
its current contents, oldest first.  A blink entry is `(timestamp, blink
detected)`, a head-pose entry is `(timestamp, pitch, yaw, roll)`. -/
structure TemporalMetrics where
  attention_history : List (ℚ × ℚ) := []
  blink_history : List (ℚ × Bool) := []
  emotion_history : List (ℚ × String × ℚ) := []
  head_pose_history : List (ℚ × ℚ × ℚ × ℚ) := []

/-- `sum(1 for _, is_closed in recent_blinks if is_closed)`. -/
def closedCount (l : List (ℚ × Bool)) : Nat :=
  (l.filter (fun e => e.2)).length

/-- `_calculate_drowsiness` of `enhanced_cognitive.py`, translated
clause by clause. -/
def calculate_drowsiness (features : FacialFeatures) (temporal : TemporalMetrics) : ℚ :=
  if temporal.blink_history.length < 20 then
    if features.eye_aspect_ratio < 0.15 then 80
    else if features.eye_aspect_ratio < 0.2 then 40
    else 10
  else
    let recent_blinks := lastN 60 temporal.blink_history
    let closed_frames := closedCount recent_blinks
    let perclos : ℚ := if recent_blinks = [] then 0 else (closed_frames : ℚ) / recent_blinks.length
    let drowsiness := min 100 (perclos * 200)
    let drowsiness := if features.eye_aspect_ratio < 0.18 then drowsiness + 20 else drowsiness
    let drowsiness := if features.head_pitch < -10 then drowsiness + 15 else drowsiness
    max 0 (min 100 drowsiness)

/-- The drowsiness estimator as the specification describes it: with at
least 20 blink-history entries, `min(100, perclos * 200)` over the last 60
entries, plus 20 when the current EAR is below 0.18, plus 15 when the head
pitch is below −10, the sum clamped to `[0, 100]`; with fewer than 20
entries, a three-band table on the current EAR. -/
def drowsinessSpec (features : FacialFeatures) (temporal : TemporalMetrics) : ℚ :=
  if temporal.blink_history.length < 20 then
    if features.eye_aspect_ratio < 0.15 then 80
    else if features.eye_aspect_ratio < 0.2 then 40
    else 10
  else
    let window := lastN 60 temporal.blink_history
    let perclos : ℚ := (closedCount window : ℚ) / window.length
    max 0 (min 100
      (min 100 (perclos * 200)
        + (if features.eye_aspect_ratio < 0.18 then 20 else 0)
        + (if features.head_pitch < -10 then 15 else 0)))

/-- `collections.deque(maxlen := cap).append(x)` on a deque currently
holding `l` (oldest first): the new element goes to the right and, past
capacity, elements are discarded from the left. -/
def dequePush {α : Type} (cap : Nat) (l : List α) (x : α) : List α :=
  if cap < (l ++ [x]).length then (l ++ [x]).drop ((l ++ [x]).length - cap) else l ++ [x]

/-- Appending a whole sequence of values, left to right. -/
def dequeExtend {α : Type} (cap : Nat) (l : List α) (vs : List α) : List α :=
  vs.foldl (dequePush cap) l

/-- `AdvancedCognitiveAnalyzer._detect_blink`, with the clock passed in
explicitly: given the stored `last_blink_time` and the current frame's
time and eye-aspect ratio, it returns the new `last_blink_time` together
with whether a blink event was emitted. -/
def detect_blink (blink_threshold blink_cooldown : ℚ)
    (last_blink_time current_time ear : ℚ) : ℚ × Bool :=
  if ear < blink_threshold ∧ current_time - last_blink_time > blink_cooldown then
    (current_time, true)
  else
    (last_blink_time, false)

/-- Running `_detect_blink` over a sequence of timestamped frames
`(time, ear)` and collecting the frames on which a blink event is
emitted. -/
def blink_events (blink_threshold blink_cooldown : ℚ) :
    ℚ → List (ℚ × ℚ) → List (ℚ × ℚ)
  | _, [] => []
  | last, (t, ear) :: rest =>
    let s := detect_blink blink_threshold blink_cooldown last t ear
    if s.2 then (t, ear) :: blink_events blink_threshold blink_cooldown s.1 rest
    else blink_events blink_threshold blink_cooldown s.1 rest

/-- `TemporalMetrics.get_blink_rate`: number of detected blinks among the
last 60 blink-history entries, or 0 with fewer than 10 entries. -/
def get_blink_rate (temporal : TemporalMetrics) : ℚ :=
  if temporal.blink_history.length < 10 then 0
  else (closedCount (lastN 60 temporal.blink_history) : ℚ)

/-- Arithmetic mean of a list of rationals. -/
def listMean (l : List ℚ) : ℚ := l.sum / l.length

/-- `np.var`: population variance, the mean of squared deviations. -/
def npVar (l : List ℚ) : ℚ :=
  (l.map (fun x => (x - listMean l) ^ 2)).sum / l.length

/-- The blink-rate factor of `_calculate_cognitive_load`. -/
def blink_rate_factor (blink_rate : ℚ) : ℚ :=
  if blink_rate > 20 then min 1 (blink_rate / 40)
  else max 0 ((blink_rate - 10) / 20)

/-- The eye-openness factor of `_calculate_cognitive_load`. -/
def eye_openness_factor (eye_openness : ℚ) : ℚ :=
  if eye_openness < 0.15 then 0.8
  else if eye_openness < 0.25 then 0.4
  else 0.1

/-- The head-movement factor of `_calculate_cognitive_load`: pose entries
are `(time, pitch, yaw, roll)`. -/
def movement_factor (recent_poses : List (ℚ × ℚ × ℚ × ℚ)) : ℚ :=
  min 1 ((npVar (recent_poses.map (fun e => e.2.2.1))
    + npVar (recent_poses.map (fun e => e.2.1))) / 2 * 10)

/-- The `load_factors` list built by `_calculate_cognitive_load`: blink
rate and eye openness always contribute, head movement only with more
than 5 pose-history entries, and an unclamped `-0.2` adjustment is added
when the mouth is open. -/
def load_factors (features : FacialFeatures) (temporal : TemporalMetrics) : List ℚ :=
  [blink_rate_factor (get_blink_rate temporal),
    eye_openness_factor features.eye_aspect_ratio]
  ++ (if 5 < temporal.head_pose_history.length then
        [movement_factor (lastN 5 temporal.head_pose_history)]
      else [])
  ++ (if features.mouth_openness > 0.05 then [-0.2] else [])

/-- `_calculate_cognitive_load`: the factor average scaled to `[0, 100]`. -/
def calculate_cognitive_load (features : FacialFeatures) (temporal : TemporalMetrics) : ℚ :=
  if (load_factors features temporal).length ≠ 0 then
    max 0 (min 100
      ((load_factors features temporal).sum / (load_factors features temporal).length * 100))
  else 50

/-- The `BaselineState` slice of `AdvancedCognitiveAnalyzer.__init__`:
`baseline_attention = 70.0` and an empty `baseline_samples` list. -/
structure BaselineState where
  baseline_attention : ℚ := 70
  baseline_samples : List ℚ := []

/-- The retained sample window of `_update_baseline`: the new sample is
appended and, past 100 entries, the oldest (`pop(0)`) is discarded. -/
def retained_samples (s : BaselineState) (attention_score : ℚ) : List ℚ :=
  if 100 < (s.baseline_samples ++ [attention_score]).length then
    (s.baseline_samples ++ [attention_score]).drop 1
  else s.baseline_samples ++ [attention_score]

/-- `AdvancedCognitiveAnalyzer._update_baseline`: append the sample, drop
the oldest past 100 entries, then recompute the baseline as the mean of
the retained samples once at least 10 exist. -/
def update_baseline (s : BaselineState) (attention_score : ℚ) : BaselineState :=
  { baseline_attention :=
      if 10 ≤ (retained_samples s attention_score).length then
        (retained_samples s attention_score).sum
          / (retained_samples s attention_score).length
      else s.baseline_attention,
    baseline_samples := retained_samples s attention_score }

/-- The per-emotion scores of `_analyze_emotion_from_features`, in the
dict's insertion order; `neutral` keeps its fixed base score of 0.5. -/
def emotion_scores (features : FacialFeatures) : List (String × ℚ) :=
  [("happy", if features.smile_intensity > 0.02 then 0.6 else 0),
    ("sad", (if features.smile_intensity < -0.01 then 0.5 else 0)
      + (if features.eye_aspect_ratio < 0.2 then 0.3 else 0)),
    ("angry", (if features.eyebrow_frown > 0.02 then 0.5 else 0)
      + (if features.mouth_openness < 0.02 then 0.2 else 0)),
    ("surprised", (if features.mouth_openness > 0.05 then 0.4 else 0)
      + (if features.eye_aspect_ratio > 0.3 then 0.4 else 0)
      + (if features.mouth_openness > 0.08 then 0.4 else 0)),
    ("neutral", 0.5),
    ("disgusted", if features.mouth_width < 0.1 then 0.4 else 0),
    ("fearful", (if features.eye_aspect_ratio > 0.35 then 0.3 else 0)
      + (if features.eyebrow_raise > 0.03 then 0.4 else 0))]

/-- Python's `max(emotions.items(), key = lambda x: x[1])`: the first
pair attaining the maximal score.  (The empty case is unreachable: the
dict is a seven-entry literal.) -/
def pyMaxByVal : List (String × ℚ) → String × ℚ
  | [] => ("", 0)
  | x :: rest => rest.foldl (fun best y => if y.2 > best.2 then y else best) x

/-- `_analyze_emotion_from_features`: the dominant emotion together with
`min(0.95, dominant_score + 0.1)`. -/
def analyze_emotion_from_features (features : FacialFeatures) : String × ℚ :=
  ((pyMaxByVal (emotion_scores features)).1,
    min 0.95 ((pyMaxByVal (emotion_scores features)).2 + 0.1))

/-- The `cognitive_states` band table of `TemporalAnalyzer.__init__`, in
dict insertion order: `(name, (attention band), (engagement band))`. -/
def cognitive_states : List (String × (ℚ × ℚ) × (ℚ × ℚ)) :=
  [("focused", (0.8, 1.0), (0.7, 1.0)),
    ("distracted", (0.0, 0.4), (0.0, 0.5)),
    ("fatigued", (0.0, 0.6), (0.0, 0.4)),
    ("engaged", (0.6, 1.0), (0.6, 1.0)),
    ("confused", (0.3, 0.7), (0.2, 0.6)),
    ("learning", (0.5, 0.9), (0.4, 0.8))]

/-- `att_fit and eng_fit` of `_analyze_cognitive_state`: the current
attention and engagement both lie in the state's bands. -/
def state_fit (attention engagement : ℚ) (st : String × (ℚ × ℚ) × (ℚ × ℚ)) : Prop :=
  st.2.1.1 ≤ attention ∧ attention ≤ st.2.1.2
    ∧ st.2.2.1 ≤ engagement ∧ engagement ≤ st.2.2.2

instance (a e : ℚ) (st : String × (ℚ × ℚ) × (ℚ × ℚ)) : Decidable (state_fit a e st) := by
  unfold state_fit
  infer_instance

/-- One iteration of the loop of `_analyze_cognitive_state`: a fitting
state with confidence `min(1, (attention + engagement)/2)` replaces the
best candidate only when its confidence is strictly larger. -/
def state_step (attention engagement : ℚ) (best : String × ℚ)
    (st : String × (ℚ × ℚ) × (ℚ × ℚ)) : String × ℚ :=
  if state_fit attention engagement st then
    if min 1 ((attention + engagement) / 2) > best.2 then
      (st.1, min 1 ((attention + engagement) / 2))
    else best
  else best

/-- `TemporalAnalyzer._analyze_cognitive_state`, restricted to its
`(state, confidence)` result, as a function of the current attention and
engagement (the ≥ 5-entries guard being met). -/
def analyze_cognitive_state (attention engagement : ℚ) : String × ℚ :=
  cognitive_states.foldl (state_step attention engagement) ("unknown", 0)

/-- The `CognitiveState` dataclass of `enhanced_cognitive.py` with its
defaults (`emotional_state = "neutral"`, numeric fields 0). -/
structure CognitiveState where
  attention_score : ℚ := 0
  cognitive_load : ℚ := 0
  engagement_level : ℚ := 0
  emotional_state : String := "neutral"
  emotional_confidence : ℚ := 0
  drowsiness_level : ℚ := 0
  focus_quality : ℚ := 0
  stress_indicators : ℚ := 0
  learning_readiness : ℚ := 0
  micro_expressions : List String := []
  confidence_score : ℚ := 0

/-- Python `int()` on a rational: truncation toward zero. -/
def pyInt (q : ℚ) : ℤ :=
  if q < 0 then ⌈q⌉ else ⌊q⌋

/-- The f-string `f"{int(x)}%"` used for the `current` fields. -/
def formatPct (q : ℚ) : String :=
  toString (pyInt q) ++ "%"

/-- The `current` field of each entry of the `metrics` dict built at the
end of `analyze_realtime`, in the dict's insertion order, as a function
of the final `camera_enabled` flag and the call's `CognitiveState`. -/
def summaryCurrents (camera_enabled : Bool) (cs : CognitiveState) : List (String × String) :=
  [("attention", if camera_enabled then formatPct cs.attention_score else "—"),
    ("cognitive_load", if camera_enabled then formatPct cs.cognitive_load else "0%"),
    ("engagement", if camera_enabled then formatPct cs.engagement_level else "—"),
    ("emotional_state", cs.emotional_state),
    ("drowsiness", if camera_enabled then formatPct cs.drowsiness_level else "—"),
    ("focus_quality", if camera_enabled then formatPct cs.focus_quality else "—"),
    ("stress_indicators", if camera_enabled then formatPct cs.stress_indicators else "—"),
    ("learning_readiness", if camera_enabled then formatPct cs.learning_readiness else "—")]

/-- The summary slice produced on the no-signal path of
`analyze_realtime` (payload with no decodable image and no detected
face/landmarks): `camera_enabled` stays `False` and the per-call
`CognitiveState` keeps its defaults, so the summary is built from
`(False, default CognitiveState)`. -/
def analyze_realtime_no_signal : Bool × List (String × String) :=
  (false, summaryCurrents false {})

/-- `_calculate_distance`: Euclidean distance between two points. -/
noncomputable def calculate_distance (p1 p2 : ℝ × ℝ) : ℝ :=
  Real.sqrt ((p1.1 - p2.1) ^ 2 + (p1.2 - p2.2) ^ 2)

/-- The local `eye_aspect_ratio` function of `_extract_facial_features`:
`(v1 + v2) / (2 * h)` over the six eye landmarks, 0 when the horizontal
distance is not positive. -/
noncomputable def eye_aspect_ratio (eye_coords : Fin 6 → ℝ × ℝ) : ℝ :=
  if calculate_distance (eye_coords 0) (eye_coords 3) > 0 then
    (calculate_distance (eye_coords 1) (eye_coords 5)
        + calculate_distance (eye_coords 2) (eye_coords 4))
      / (2 * calculate_distance (eye_coords 0) (eye_coords 3))
  else 0

/-- A degenerate but well-formed six-point eye: the corners are 3 apart
horizontally while each vertical landmark pair coincides. -/
def closedEye : Fin 6 → ℝ × ℝ
  | 0 => (0, 0)
  | 1 => (1, 0)
  | 2 => (2, 0)
  | 3 => (3, 0)
  | 4 => (2, 0)
  | 5 => (1, 0)

theorem lastN_length {α : Type} (n : Nat) (l : List α) :
    (lastN n l).length = min n l.length := by
  simp [lastN]
  omega

theorem lastN_ne_nil {α : Type} (n : Nat) (l : List α)
    (hn : 0 < n) (hl : l ≠ []) : lastN n l ≠ [] := by
  have : (lastN n l).length ≠ 0 := by
    rw [lastN_length]
    have : 0 < l.length := List.length_pos.mpr hl
    omega
  exact fun h => this (by simp [h])

/-- C2: the code's drowsiness estimator coincides with the PERCLOS formula
of the specification: with ≥ 20 blink-history entries it is
`clamp₀¹⁰⁰ (min 100 (perclos·200) + 20·[EAR < 0.18] + 15·[pitch < −10])`
over the last 60 entries, and with < 20 entries it is the three-band
EAR table. -/
theorem calculate_drowsiness_eq_spec (features : FacialFeatures) (temporal : TemporalMetrics) :
    calculate_drowsiness features temporal = drowsinessSpec features temporal := by
  unfold calculate_drowsiness drowsinessSpec
  by_cases hlen : temporal.blink_history.length < 20
  · simp [hlen]
  · have hne : lastN 60 temporal.blink_history ≠ [] := by
      apply lastN_ne_nil
      · norm_num
      · intro h
        rw [h] at hlen
        simp at hlen
    simp only [hlen, if_false, if_neg hne]
    split_ifs <;> ring_nf

/-- C3: holding the facial features fixed, PERCLOS drowsiness is monotone
in the number of closed entries of the trailing window: for two blink
histories of ≥ 20 entries whose trailing 60-entry windows have equal
length, more closed entries gives a drowsiness at least as large. -/
theorem calculate_drowsiness_monotone (features : FacialFeatures)
    (t1 t2 : TemporalMetrics)
    (h1 : 20 ≤ t1.blink_history.length) (h2 : 20 ≤ t2.blink_history.length)
    (hw : (lastN 60 t1.blink_history).length = (lastN 60 t2.blink_history).length)
    (hc : closedCount (lastN 60 t1.blink_history) ≤ closedCount (lastN 60 t2.blink_history)) :
    calculate_drowsiness features t1 ≤ calculate_drowsiness features t2 := by
  unfold calculate_drowsiness
  have hn1 : ¬ t1.blink_history.length < 20 := by omega
  have hn2 : ¬ t2.blink_history.length < 20 := by omega
  have hpos : 0 < (lastN 60 t1.blink_history).length := by
    rw [lastN_length]; omega
  have hne1 : lastN 60 t1.blink_history ≠ [] := by
    intro h; rw [h] at hpos; simp at hpos
  have hne2 : lastN 60 t2.blink_history ≠ [] := by
    intro h
    have hw' := hw
    rw [h] at hw'
    rw [List.length_nil] at hw'
    omega
  simp only [hn1, hn2, if_false, if_neg hne1, if_neg hne2]
  have hm : (0 : ℚ) < (lastN 60 t1.blink_history).length := by exact_mod_cast hpos
  have hq : (closedCount (lastN 60 t1.blink_history) : ℚ) / (lastN 60 t1.blink_history).length
      ≤ (closedCount (lastN 60 t2.blink_history) : ℚ) / (lastN 60 t2.blink_history).length := by
    rw [← hw]
    exact div_le_div_of_nonneg_right (by exact_mod_cast hc) hm.le
  split_ifs <;>
    · apply max_le_max le_rfl
      apply min_le_min le_rfl
      gcongr

/-- Witness for C3 at concrete inputs: 20-entry histories with 3 and 5
closed entries respectively. -/
theorem calculate_drowsiness_monotone_witness :
    calculate_drowsiness { eye_aspect_ratio := 0.25 }
        { blink_history := (List.range 20).map (fun i => ((i : ℚ), decide (i < 3))) }
      ≤ calculate_drowsiness { eye_aspect_ratio := 0.25 }
        { blink_history := (List.range 20).map (fun i => ((i : ℚ), decide (i < 5))) } :=
  calculate_drowsiness_monotone _ _ _ (by decide) (by decide) (by decide) (by decide)

theorem dequePush_eq_lastN {α : Type} (cap : Nat) (l : List α) (x : α) :
    dequePush cap l x = lastN cap (l ++ [x]) := by
  unfold dequePush lastN
  split_ifs with h
  · rfl
  · have hz : (l ++ [x]).length - cap = 0 := by omega
    rw [hz, List.drop_zero]

theorem dequePush_length {α : Type} (cap : Nat) (l : List α) (x : α) :
    (dequePush cap l x).length = min cap (l.length + 1) := by
  rw [dequePush_eq_lastN, lastN_length]
  simp

theorem lastN_append_lastN {α : Type} (cap : Nat) (l rest : List α) :
    lastN cap (lastN cap l ++ rest) = lastN cap (l ++ rest) := by
  unfold lastN
  rw [← List.drop_append_of_le_length (by omega : l.length - cap ≤ l.length)]
  rw [List.drop_drop]
  congr 1
  simp only [List.length_append, List.length_drop]
  omega

theorem dequeExtend_eq_lastN {α : Type} (cap : Nat) (vs : List α) :
    ∀ l : List α, l.length ≤ cap → dequeExtend cap l vs = lastN cap (l ++ vs) := by
  induction vs with
  | nil =>
    intro l hl
    have hz : l.length - cap = 0 := by omega
    simp [dequeExtend, lastN, hz]
  | cons x rest ih =>
    intro l hl
    have hstep : dequeExtend cap l (x :: rest) = dequeExtend cap (dequePush cap l x) rest := rfl
    rw [hstep, ih _ (by rw [dequePush_length]; exact Nat.min_le_left _ _)]
    rw [dequePush_eq_lastN, lastN_append_lastN]
    simp

/-- C4: pushing any sequence of values through a bounded history never
exceeds the configured capacity, and pushing `cap + k` values from empty
leaves exactly the last `cap` values, in order (the `k` oldest are
evicted first). -/
theorem dequeExtend_capacity_fifo {α : Type} (cap k : Nat) (vs : List α) :
    (dequeExtend cap [] vs).length ≤ cap ∧
      (vs.length = cap + k → dequeExtend cap [] vs = vs.drop k) := by
  have hmain : dequeExtend cap [] vs = lastN cap vs := by
    have h := dequeExtend_eq_lastN cap vs [] (by simp)
    simpa using h
  constructor
  · rw [hmain, lastN_length]
    exact Nat.min_le_left _ _
  · intro hlen
    rw [hmain]
    unfold lastN
    congr 1
    omega

/-- Witness for C4: pushing `3 + 2` values through a capacity-3 history
keeps exactly the last three, in order. -/
theorem dequeExtend_capacity_fifo_witness :
    dequeExtend 3 ([] : List Nat) [1, 2, 3, 4, 5] = [3, 4, 5] := by
  have h := (dequeExtend_capacity_fifo 3 2 ([1, 2, 3, 4, 5] : List Nat)).2 (by decide)
  simpa using h

theorem blink_events_invariant (th cd : ℚ) (hcd : 0 ≤ cd) (frames : List (ℚ × ℚ)) :
    ∀ last : ℚ,
      List.Pairwise (fun a b : ℚ × ℚ => b.1 - a.1 > cd) (blink_events th cd last frames) ∧
      (∀ e ∈ blink_events th cd last frames, e.1 - last > cd ∧ e.2 < th) := by
  induction frames with
  | nil => intro last; simp [blink_events]
  | cons f rest ih =>
    intro last
    obtain ⟨t, ear⟩ := f
    by_cases h : ear < th ∧ t - last > cd
    · have hev : blink_events th cd last ((t, ear) :: rest)
          = (t, ear) :: blink_events th cd t rest := by
        simp [blink_events, detect_blink, h]
      obtain ⟨ihp, ihm⟩ := ih t
      rw [hev]
      constructor
      · exact List.Pairwise.cons (fun e he => (ihm e he).1) ihp
      · intro e he
        rcases List.mem_cons.mp he with he | he
        · subst he
          exact ⟨h.2, h.1⟩
        · obtain ⟨hgap, hear⟩ := ihm e he
          exact ⟨by linarith [h.2], hear⟩
    · have hev : blink_events th cd last ((t, ear) :: rest)
          = blink_events th cd last rest := by
        simp [blink_events, detect_blink, h]
      rw [hev]
      obtain ⟨ihp, ihm⟩ := ih last
      exact ⟨ihp, ihm⟩

/-- C5: over any frame sequence, with a nonnegative cooldown, any two
emitted blink events are separated by strictly more than the cooldown,
and every emitted event's frame has eye-aspect ratio strictly below the
closure threshold. -/
theorem blink_events_cooldown (th cd last : ℚ) (frames : List (ℚ × ℚ)) (hcd : 0 ≤ cd) :
    List.Pairwise (fun a b : ℚ × ℚ => b.1 - a.1 > cd) (blink_events th cd last frames) ∧
      ∀ e ∈ blink_events th cd last frames, e.2 < th := by
  obtain ⟨hp, hm⟩ := blink_events_invariant th cd hcd frames last
  exact ⟨hp, fun e he => (hm e he).2⟩

/-- C9 counterexample: with an open mouth (`mouth_openness = 0.06`) the
factor list contains the raw `-0.2` adjustment, so not every contributing
factor lies in `[0, 1]`. -/
theorem load_factors_not_all_clamped :
    ¬ ∀ x ∈ load_factors { mouth_openness := 0.06 } {}, 0 ≤ x ∧ x ≤ 1 := by
  intro hall
  have hmem : (-0.2 : ℚ) ∈ load_factors { mouth_openness := 0.06 } {} := by
    norm_num [load_factors]
  have h := (hall _ hmem).1
  norm_num at h

theorem npVar_nonneg (l : List ℚ) : 0 ≤ npVar l := by
  unfold npVar
  apply div_nonneg
  · apply List.sum_nonneg
    intro x hx
    obtain ⟨y, _, rfl⟩ := List.mem_map.mp hx
    positivity
  · positivity

theorem blink_rate_factor_bounds (br : ℚ) :
    0 ≤ blink_rate_factor br ∧ blink_rate_factor br ≤ 1 := by
  unfold blink_rate_factor
  split_ifs with h
  · exact ⟨le_min (by norm_num) (div_nonneg (by linarith) (by norm_num)), min_le_left _ _⟩
  · refine ⟨le_max_left _ _, max_le (by norm_num) ?_⟩
    rw [div_le_one (by norm_num)]
    push_neg at h
    linarith

theorem eye_openness_factor_bounds (eo : ℚ) :
    0 ≤ eye_openness_factor eo ∧ eye_openness_factor eo ≤ 1 := by
  unfold eye_openness_factor
  split_ifs <;> norm_num

theorem movement_factor_bounds (ps : List (ℚ × ℚ × ℚ × ℚ)) :
    0 ≤ movement_factor ps ∧ movement_factor ps ≤ 1 := by
  unfold movement_factor
  refine ⟨le_min (by norm_num) ?_, min_le_left _ _⟩
  have h1 := npVar_nonneg (ps.map (fun e => e.2.2.1))
  have h2 := npVar_nonneg (ps.map (fun e => e.2.1))
  linarith

theorem load_factors_mem (features : FacialFeatures) (temporal : TemporalMetrics) :
    ∀ x ∈ load_factors features temporal,
      x = blink_rate_factor (get_blink_rate temporal)
        ∨ x = eye_openness_factor features.eye_aspect_ratio
        ∨ x = movement_factor (lastN 5 temporal.head_pose_history)
        ∨ x = -0.2 := by
  intro x hx
  unfold load_factors at hx
  rcases List.mem_append.mp hx with hx | hx
  · rcases List.mem_append.mp hx with hx | hx
    · rcases List.mem_cons.mp hx with h | hx
      · exact Or.inl h
      · rcases List.mem_cons.mp hx with h | hx
        · exact Or.inr (Or.inl h)
        · simp at hx
    · split_ifs at hx
      · rw [List.mem_singleton] at hx
        exact Or.inr (Or.inr (Or.inl hx))
      · simp at hx
  · split_ifs at hx
    · rw [List.mem_singleton] at hx
      exact Or.inr (Or.inr (Or.inr hx))
    · simp at hx

/-- C9 amended: every contributing factor is either clamped to `[0, 1]`
or is the fixed `-0.2` mouth-activity adjustment, and the final cognitive
load always lies in `[0, 100]`. -/
theorem load_factors_clamped_except_mouth (features : FacialFeatures)
    (temporal : TemporalMetrics) :
    (∀ x ∈ load_factors features temporal, (0 ≤ x ∧ x ≤ 1) ∨ x = -0.2) ∧
      0 ≤ calculate_cognitive_load features temporal ∧
      calculate_cognitive_load features temporal ≤ 100 := by
  refine ⟨?_, ?_⟩
  · intro x hx
    rcases load_factors_mem features temporal x hx with rfl | rfl | rfl | rfl
    · exact Or.inl (blink_rate_factor_bounds _)
    · exact Or.inl (eye_openness_factor_bounds _)
    · exact Or.inl (movement_factor_bounds _)
    · exact Or.inr rfl
  · unfold calculate_cognitive_load
    split_ifs
    · exact ⟨le_max_left _ _, max_le (by norm_num) (min_le_left _ _)⟩
    · norm_num

/-- Witness for C9 at a concrete input: with default features the
eye-openness factor `0.8` is a member of the factor list and is within
`[0, 1]`. -/
theorem load_factors_clamped_except_mouth_witness :
    ((0 : ℚ) ≤ 0.8 ∧ (0.8 : ℚ) ≤ 1) ∨ (0.8 : ℚ) = -0.2 :=
  (load_factors_clamped_except_mouth {} {}).1 0.8
    (by norm_num [load_factors, eye_openness_factor])

/-- The state with ten samples of value 0 is reachable from the initial
state (`baseline_attention = 70`, no samples). -/
theorem update_baseline_reach_ten_zeros :
    ([0, 0, 0, 0, 0, 0, 0, 0, 0, 0] : List ℚ).foldl update_baseline ⟨70, []⟩
      = ⟨0, [0, 0, 0, 0, 0, 0, 0, 0, 0, 0]⟩ := by
  norm_num [update_baseline, retained_samples]

theorem update_baseline_ten_zeros_then_11 :
    update_baseline ⟨0, [0, 0, 0, 0, 0, 0, 0, 0, 0, 0]⟩ 11
      = ⟨1, [0, 0, 0, 0, 0, 0, 0, 0, 0, 0, 11]⟩ := by
  norm_num [update_baseline, retained_samples]

theorem update_baseline_then_13 :
    update_baseline ⟨1, [0, 0, 0, 0, 0, 0, 0, 0, 0, 0, 11]⟩ 13
      = ⟨2, [0, 0, 0, 0, 0, 0, 0, 0, 0, 0, 11, 13]⟩ := by
  norm_num [update_baseline, retained_samples]

/-- C8 counterexample: starting from the reachable state with ten samples
of value 0 (so the ≥ 10-samples regime is active), the updates for new
samples 11 and 13 would need smoothing factors 1/11 and 1/12
respectively, so no single exponential-moving-average coefficient α
explains the code's updates. -/
theorem update_baseline_not_ema :
    ¬ ∃ α : ℚ,
      (update_baseline ⟨0, [0, 0, 0, 0, 0, 0, 0, 0, 0, 0]⟩ 11).baseline_attention
          = 0 * (1 - α) + 11 * α ∧
        (update_baseline (update_baseline ⟨0, [0, 0, 0, 0, 0, 0, 0, 0, 0, 0]⟩ 11) 13).baseline_attention
          = (update_baseline ⟨0, [0, 0, 0, 0, 0, 0, 0, 0, 0, 0]⟩ 11).baseline_attention
              * (1 - α) + 13 * α := by
  rintro ⟨α, h1, h2⟩
  rw [update_baseline_ten_zeros_then_11] at h1 h2
  rw [update_baseline_then_13] at h2
  simp only at h1 h2
  have hα : α = 1 / 11 := by linarith
  rw [hα] at h2
  norm_num at h2

/-- C8 amended: each update keeps the sample window bounded at 100
entries, and once the retained window has at least 10 samples the stored
baseline equals the arithmetic mean of the retained window (a running
mean, not a fixed-coefficient exponential moving average). -/
theorem update_baseline_mean_and_bounded (s : BaselineState) (a : ℚ)
    (hlen : s.baseline_samples.length ≤ 100) :
    (update_baseline s a).baseline_samples.length ≤ 100 ∧
      (10 ≤ (update_baseline s a).baseline_samples.length →
        (update_baseline s a).baseline_attention
          = (update_baseline s a).baseline_samples.sum
              / (update_baseline s a).baseline_samples.length) := by
  constructor
  · simp only [update_baseline]
    unfold retained_samples
    split_ifs with h
    · simp only [List.length_drop, List.length_append, List.length_cons,
        List.length_nil] at h ⊢
      omega
    · simp only [List.length_append, List.length_cons, List.length_nil] at h ⊢
      omega
  · intro h10
    simp only [update_baseline] at h10 ⊢
    rw [if_pos h10]

/-- Witness for C8 at a concrete input: nine retained samples of 1 plus a
new sample 11 give a ten-sample window whose mean is the new baseline. -/
theorem update_baseline_mean_and_bounded_witness :
    (update_baseline ⟨70, List.replicate 9 (1 : ℚ)⟩ 11).baseline_samples.length ≤ 100 ∧
      (10 ≤ (update_baseline ⟨70, List.replicate 9 (1 : ℚ)⟩ 11).baseline_samples.length →
        (update_baseline ⟨70, List.replicate 9 (1 : ℚ)⟩ 11).baseline_attention
          = (update_baseline ⟨70, List.replicate 9 (1 : ℚ)⟩ 11).baseline_samples.sum
              / (update_baseline ⟨70, List.replicate 9 (1 : ℚ)⟩ 11).baseline_samples.length) :=
  update_baseline_mean_and_bounded ⟨70, List.replicate 9 (1 : ℚ)⟩ 11 (by simp)

theorem foldl_maxByVal_ge (rest : List (String × ℚ)) :
    ∀ first : String × ℚ,
      first.2 ≤ (rest.foldl (fun best y => if y.2 > best.2 then y else best) first).2 ∧
      ∀ x ∈ rest,
        x.2 ≤ (rest.foldl (fun best y => if y.2 > best.2 then y else best) first).2 := by
  induction rest with
  | nil => intro first; simp
  | cons y tail ih =>
    intro first
    have hstep : first.2 ≤ (if y.2 > first.2 then y else first).2 := by
      split_ifs with h
      · exact le_of_lt h
      · exact le_rfl
    have hy : y.2 ≤ (if y.2 > first.2 then y else first).2 := by
      split_ifs with h
      · exact le_rfl
      · exact le_of_not_lt h
    obtain ⟨ih1, ih2⟩ := ih (if y.2 > first.2 then y else first)
    refine ⟨le_trans hstep ih1, ?_⟩
    intro x hx
    rcases List.mem_cons.mp hx with rfl | hx
    · exact le_trans hy ih1
    · exact ih2 x hx

theorem pyMaxByVal_ge_mem (l : List (String × ℚ)) (x : String × ℚ) (hx : x ∈ l) :
    x.2 ≤ (pyMaxByVal l).2 := by
  cases l with
  | nil => simp at hx
  | cons hd rest =>
    have hpy : pyMaxByVal (hd :: rest)
        = rest.foldl (fun best y => if y.2 > best.2 then y else best) hd := rfl
    rcases List.mem_cons.mp hx with h | h
    · rw [h, hpy]
      exact (foldl_maxByVal_ge rest hd).1
    · rw [hpy]
      exact (foldl_maxByVal_ge rest hd).2 x h

/-- C10: for every facial-features input the rule-based emotion
classifier's reported confidence lies in `[0.6, 0.95]`: the neutral
label's base score of 0.5 bounds the winning score below, and the
confidence is `min(0.95, winning_score + 0.1)`. -/
theorem emotional_confidence_bounds (features : FacialFeatures) :
    0.6 ≤ (analyze_emotion_from_features features).2 ∧
      (analyze_emotion_from_features features).2 ≤ 0.95 := by
  have hneutral : ("neutral", (0.5 : ℚ)) ∈ emotion_scores features := by
    simp [emotion_scores]
  have h5 : (0.5 : ℚ) ≤ (pyMaxByVal (emotion_scores features)).2 :=
    pyMaxByVal_ge_mem _ _ hneutral
  unfold analyze_emotion_from_features
  constructor
  · have h6 : (0.6 : ℚ) ≤ (pyMaxByVal (emotion_scores features)).2 + 0.1 := by linarith
    exact le_min (by norm_num) h6
  · exact min_le_left _ _

/-- Witness for C5 at the defaults (threshold 0.2, cooldown 0.1) on a
concrete four-frame sequence. -/
theorem blink_events_cooldown_witness :
    (0 : ℚ) ≤ 0.1 ∧
      (List.Pairwise (fun a b : ℚ × ℚ => b.1 - a.1 > 0.1)
          (blink_events 0.2 0.1 0 [(1, 0.1), (1.05, 0.1), (2, 0.1), (3, 0.5)]) ∧
        ∀ e ∈ blink_events 0.2 0.1 0 [(1, 0.1), (1.05, 0.1), (2, 0.1), (3, 0.5)],
          e.2 < 0.2) :=
  ⟨by norm_num,
    blink_events_cooldown 0.2 0.1 0 [(1, 0.1), (1.05, 0.1), (2, 0.1), (3, 0.5)] (by norm_num)⟩

theorem foldl_state_step_of_none (a e : ℚ) (l : List (String × (ℚ × ℚ) × (ℚ × ℚ)))
    (best : String × ℚ) (h : ∀ st ∈ l, ¬ state_fit a e st) :
    l.foldl (state_step a e) best = best := by
  induction l generalizing best with
  | nil => rfl
  | cons st rest ih =>
    rw [List.foldl_cons]
    have hst : state_step a e best st = best := by
      unfold state_step
      rw [if_neg (h st (List.mem_cons_self st rest))]
    rw [hst]
    exact ih best (fun s hs => h s (List.mem_cons_of_mem st hs))

theorem foldl_state_step_keep (a e : ℚ) (l : List (String × (ℚ × ℚ) × (ℚ × ℚ)))
    (best : String × ℚ) (h : min 1 ((a + e) / 2) ≤ best.2) :
    l.foldl (state_step a e) best = best := by
  induction l with
  | nil => rfl
  | cons st rest ih =>
    rw [List.foldl_cons]
    have hst : state_step a e best st = best := by
      unfold state_step
      split_ifs with h1 h2
      · exact absurd h2 (not_lt.mpr h)
      · rfl
      · rfl
    rw [hst]
    exact ih

theorem foldl_state_step_of_fit (a e : ℚ) (l : List (String × (ℚ × ℚ) × (ℚ × ℚ))) :
    ∀ best : String × ℚ, best.2 ≤ min 1 ((a + e) / 2) →
      (∃ st ∈ l, state_fit a e st) →
      (l.foldl (state_step a e) best).2 = min 1 ((a + e) / 2) := by
  induction l with
  | nil =>
    intro best _ hex
    simp at hex
  | cons st rest ih =>
    intro best hb hex
    by_cases hfit : state_fit a e st
    · rw [List.foldl_cons]
      have hstep : state_step a e best st
          = if min 1 ((a + e) / 2) > best.2 then (st.1, min 1 ((a + e) / 2)) else best := by
        unfold state_step
        rw [if_pos hfit]
      by_cases hc : min 1 ((a + e) / 2) > best.2
      · rw [hstep, if_pos hc]
        by_cases hrest : ∃ s ∈ rest, state_fit a e s
        · exact ih (st.1, min 1 ((a + e) / 2)) le_rfl hrest
        · push_neg at hrest
          rw [foldl_state_step_of_none a e rest _ hrest]
      · rw [hstep, if_neg hc]
        push_neg at hc
        have hbc : best.2 = min 1 ((a + e) / 2) := le_antisymm hb hc
        rw [foldl_state_step_keep a e rest best hbc.ge]
        exact hbc
    · rw [List.foldl_cons]
      have hst : state_step a e best st = best := by
        unfold state_step
        rw [if_neg hfit]
      rw [hst]
      apply ih best hb
      obtain ⟨s, hs, hfit'⟩ := hex
      rcases List.mem_cons.mp hs with h | h
      · exact absurd (h ▸ hfit') hfit
      · exact ⟨s, h, hfit'⟩

theorem state_fit_bounds (a e : ℚ) (st : String × (ℚ × ℚ) × (ℚ × ℚ))
    (hst : st ∈ cognitive_states) (hfit : state_fit a e st) :
    0 ≤ a ∧ a ≤ 1 ∧ 0 ≤ e ∧ e ≤ 1 := by
  fin_cases hst <;>
    · obtain ⟨h1, h2, h3, h4⟩ := hfit
      norm_num at h1 h2 h3 h4
      refine ⟨by linarith, by linarith, by linarith, by linarith⟩

/-- C7: the cognitive-state classifier is a deterministic function of the
current attention and engagement values, its returned confidence equals
`(attention + engagement) / 2` whenever some band matches, and it returns
`("unknown", 0)` when no band matches. -/
theorem analyze_cognitive_state_deterministic (a₁ e₁ a₂ e₂ : ℚ)
    (ha : a₁ = a₂) (he : e₁ = e₂) :
    analyze_cognitive_state a₁ e₁ = analyze_cognitive_state a₂ e₂ ∧
      ((∃ st ∈ cognitive_states, state_fit a₁ e₁ st) →
        (analyze_cognitive_state a₁ e₁).2 = (a₁ + e₁) / 2) ∧
      ((∀ st ∈ cognitive_states, ¬ state_fit a₁ e₁ st) →
        analyze_cognitive_state a₁ e₁ = ("unknown", 0)) := by
  subst ha
  subst he
  refine ⟨rfl, ?_, ?_⟩
  · intro hex
    obtain ⟨st, hst, hfit⟩ := hex
    obtain ⟨ha0, ha1, he0, he1⟩ := state_fit_bounds a₁ e₁ st hst hfit
    have hmin : min 1 ((a₁ + e₁) / 2) = (a₁ + e₁) / 2 := min_eq_right (by linarith)
    have h0 : ((("unknown", (0 : ℚ))).2) ≤ min 1 ((a₁ + e₁) / 2) := by
      rw [hmin]
      show (0 : ℚ) ≤ (a₁ + e₁) / 2
      linarith
    have hres := foldl_state_step_of_fit a₁ e₁ cognitive_states ("unknown", 0) h0
      ⟨st, hst, hfit⟩
    unfold analyze_cognitive_state
    rw [hres, hmin]
  · intro hnone
    exact foldl_state_step_of_none a₁ e₁ cognitive_states ("unknown", 0) hnone

/-- Witness for C7 at attention = engagement = 0.9 (the `focused` band
matches): the returned confidence equals the mean 0.9. -/
theorem analyze_cognitive_state_deterministic_witness :
    (analyze_cognitive_state 0.9 0.9).2 = (0.9 + 0.9) / 2 :=
  (analyze_cognitive_state_deterministic 0.9 0.9 0.9 0.9 rfl rfl).2.1
    ⟨("focused", (0.8, 1.0), (0.7, 1.0)), by norm_num [cognitive_states],
      by norm_num [state_fit]⟩

/-- C1 counterexample: on the no-signal path the `emotional_state`
metric's `current` is the default emotion label `"neutral"`, not the
`"—"` placeholder, so not every metric other than `cognitive_load`
reports `"—"`. -/
theorem summaryCurrents_no_signal_not_all_dash :
    ¬ ∀ p ∈ analyze_realtime_no_signal.2,
        (p.1 = "cognitive_load" → p.2 = "0%") ∧ (p.1 ≠ "cognitive_load" → p.2 = "—") := by
  decide

/-- C1 amended: the no-signal summary has `camera_enabled = false` and
every metric's `current` is the `"—"` placeholder, except
`cognitive_load` whose `current` is `"0%"` and `emotional_state` whose
`current` is the default emotion label `"neutral"`. -/
theorem summaryCurrents_no_signal_spec :
    analyze_realtime_no_signal
      = (false,
          [("attention", "—"), ("cognitive_load", "0%"), ("engagement", "—"),
            ("emotional_state", "neutral"), ("drowsiness", "—"), ("focus_quality", "—"),
            ("stress_indicators", "—"), ("learning_readiness", "—")]) := by
  rfl

theorem calculate_distance_nonneg (p1 p2 : ℝ × ℝ) : 0 ≤ calculate_distance p1 p2 :=
  Real.sqrt_nonneg _

/-- C6 counterexample: on `closedEye` the horizontal distance is 3, yet
the eye-aspect ratio is 0 — EAR can vanish without the horizontal
distance vanishing, refuting the claimed "if and only if". -/
theorem eye_aspect_ratio_zero_horizontal_positive :
    eye_aspect_ratio closedEye = 0
      ∧ calculate_distance (closedEye 0) (closedEye 3) = 3 := by
  have h03 : calculate_distance (closedEye 0) (closedEye 3) = 3 := by
    show Real.sqrt ((0 - 3) ^ 2 + (0 - 0) ^ 2) = 3
    rw [show ((0 : ℝ) - 3) ^ 2 + (0 - 0) ^ 2 = 3 ^ 2 by norm_num]
    exact Real.sqrt_sq (by norm_num)
  have h15 : calculate_distance (closedEye 1) (closedEye 5) = 0 := by
    show Real.sqrt ((1 - 1) ^ 2 + (0 - 0) ^ 2) = 0
    rw [show ((1 : ℝ) - 1) ^ 2 + (0 - 0) ^ 2 = 0 by norm_num]
    exact Real.sqrt_zero
  have h24 : calculate_distance (closedEye 2) (closedEye 4) = 0 := by
    show Real.sqrt ((2 - 2) ^ 2 + (0 - 0) ^ 2) = 0
    rw [show ((2 : ℝ) - 2) ^ 2 + (0 - 0) ^ 2 = 0 by norm_num]
    exact Real.sqrt_zero
  refine ⟨?_, h03⟩
  unfold eye_aspect_ratio
  rw [if_pos (by rw [h03]; norm_num)]
  rw [h15, h24]
  norm_num

/-- C6 amended: for every six-point eye landmark set the eye-aspect ratio
is nonnegative, and it is 0 exactly when the horizontal corner distance
vanishes or both vertical distances vanish. -/
theorem eye_aspect_ratio_nonneg_zero_iff (c : Fin 6 → ℝ × ℝ) :
    0 ≤ eye_aspect_ratio c ∧
      (eye_aspect_ratio c = 0 ↔
        calculate_distance (c 0) (c 3) = 0
          ∨ calculate_distance (c 1) (c 5) + calculate_distance (c 2) (c 4) = 0) := by
  have hv : 0 ≤ calculate_distance (c 1) (c 5) + calculate_distance (c 2) (c 4) :=
    add_nonneg (calculate_distance_nonneg _ _) (calculate_distance_nonneg _ _)
  unfold eye_aspect_ratio
  split_ifs with h
  · constructor
    · exact div_nonneg hv (by linarith)
    · constructor
      · intro hz
        rcases div_eq_zero_iff.mp hz with h0 | h0
        · exact Or.inr h0
        · exact absurd h0 (by positivity)
      · intro hor
        rcases hor with h0 | h0
        · exact absurd h0 (ne_of_gt h)
        · rw [h0, zero_div]
  · have h0 : calculate_distance (c 0) (c 3) = 0 :=
      le_antisymm (not_lt.mp h) (calculate_distance_nonneg _ _)
    exact ⟨le_refl 0, ⟨fun _ => Or.inl h0, fun _ => rfl⟩⟩
